import Mathlib

/-!
# Verification of the ferrumgw2 API gateway core

A shallow embedding of the request-forwarding pipeline of the gateway
(`src/proxy.rs`, `src/server.rs`, `src/tls.rs`), with theorems checking the
natural-language specification against it.

Strings model Rust `String`/`&str`; HTTP paths and header names handled by the
gateway are ASCII, so character-based `String.drop` coincides with Rust's
byte slicing at the points where the code slices after a `starts_with` check.
Header names are modelled lowercase, as the `http` crate normalizes them.
-/

namespace Ferrum

/-- Rust `str::starts_with` on string arguments: character-level version so
that the kernel can evaluate it on concrete inputs. -/
def strStartsWith (s p : String) : Bool := p.data.isPrefixOf s.data

/-- Rust `str::ends_with`: character-level version. -/
def strEndsWith (s p : String) : Bool := p.data.isSuffixOf s.data

/-- Rust slicing `&s[n..]` (character-level model of byte slicing; the paths
the gateway handles are ASCII, where the two coincide). -/
def strDrop (s : String) (n : Nat) : String := ⟨s.data.drop n⟩

/-- Rust slicing `&s[..s.len()-n]`, used as `backend_path[..len-1]`. -/
def strDropRight (s : String) (n : Nat) : String := ⟨s.data.take (s.data.length - n)⟩

/-- Rust `str::len` (character-level model of the byte length). -/
def strLength (s : String) : Nat := s.data.length

/-- Rust `str::is_empty`. -/
def strIsEmpty (s : String) : Bool := s.data.isEmpty

/-- Error type from `src/error.rs` (`GatewayError`); only the variants the
verified code paths construct are carried with their payloads. -/
inductive GatewayError where
  | Config (msg : String)
  | Io (msg : String)
  | Yaml (msg : String)
  | Routing (msg : String)
  | RouterInsert (msg : String)
  | TlsConfig (msg : String)
  deriving Repr, DecidableEq

/-- `ProxyDefinition` from `src/proxy.rs` lines 24-55: the unit of routing
configuration. -/
structure ProxyDefinition where
  id : String
  name : String
  listen_path : String
  backend_protocol : String
  backend_host : String
  backend_port : Nat := 80
  backend_path : String := "/"
  strip_listen_path : Bool := false
  preserve_host_header : Bool := false
  backend_connect_timeout_ms : Nat := 3000
  backend_read_timeout_ms : Nat := 30000
  backend_write_timeout_ms : Nat := 30000
  skip_certificate_verification : Bool := false
  deriving Repr, DecidableEq

/-- `default_backend_port` from `src/proxy.rs`. -/
def default_backend_port : Nat := 80

/-- `default_backend_path` from `src/proxy.rs`. -/
def default_backend_path : String := "/"

/-- `default_backend_connect_timeout_ms` from `src/proxy.rs`. -/
def default_backend_connect_timeout_ms : Nat := 3000

/-- `default_backend_read_timeout_ms` from `src/proxy.rs`. -/
def default_backend_read_timeout_ms : Nat := 30000

/-- `default_backend_write_timeout_ms` from `src/proxy.rs`. -/
def default_backend_write_timeout_ms : Nat := 30000

/-- The path-rewriting logic of `handle_request`, `src/server.rs` lines 44-68:
computes `path_to_forward` for a matched proxy definition and the inbound
request path. -/
def pathToForward (proxy : ProxyDefinition) (requestPath : String) : String :=
  if proxy.strip_listen_path then
    if strStartsWith requestPath proxy.listen_path then
      let remainingPath := strDrop requestPath (strLength proxy.listen_path)
      if strIsEmpty remainingPath then
        proxy.backend_path
      else if strEndsWith proxy.backend_path "/" && strStartsWith remainingPath "/" then
        strDropRight proxy.backend_path 1 ++ remainingPath
      else if !strEndsWith proxy.backend_path "/" && !strStartsWith remainingPath "/" then
        proxy.backend_path ++ "/" ++ remainingPath
      else
        proxy.backend_path ++ remainingPath
    else
      proxy.backend_path ++ requestPath
  else
    proxy.backend_path ++ requestPath

/-! ## Route table (`src/proxy.rs` lines 198-221, `matchit` router model) -/

/-- A built route table: the patterns registered with `matchit::Router::insert`
paired with the `ProxyDefinition` values stored alongside them. -/
abbrev RouteTable := List (String × ProxyDefinition)

/-- The `path` local of `build_router`, `src/proxy.rs` lines 204-208: the
registered pattern, with a `/` prepended when the `listen_path` lacks one. -/
def normalizeListenPath (lp : String) : String :=
  if !strStartsWith lp "/" then "/" ++ lp else lp

/-- Loop body of `build_router`, `src/proxy.rs` lines 202-218: normalize the
pattern to begin with `/`, then insert the (unchanged) definition under it;
insertion fails on a conflicting pattern (modelled as: the same pattern was
already registered), which aborts the build with a `RouterInsert` error. -/
def build_router_loop (router : RouteTable) :
    List ProxyDefinition → Except GatewayError RouteTable
  | [] => .ok router
  | proxy :: rest =>
    if router.any (fun e => e.1 == normalizeListenPath proxy.listen_path) then
      .error (.RouterInsert ("Failed to insert route for proxy " ++ proxy.id))
    else
      build_router_loop (router ++ [(normalizeListenPath proxy.listen_path, proxy)]) rest

/-- `build_router` from `src/proxy.rs` lines 199-221. -/
def build_router (proxies : List ProxyDefinition) : Except GatewayError RouteTable :=
  build_router_loop [] proxies

/-- Split a path into `/`-separated segments (helper for the route-matching
model below). -/
def splitSlash : List Char → List Char → List (List Char)
  | [], acc => [acc.reverse]
  | c :: rest, acc =>
    if c = '/' then acc.reverse :: splitSlash rest [] else splitSlash rest (c :: acc)

/-- Modelled from the spec (§4.1): whether a single registered pattern matches
a request path. The `matchit` crate is an external dependency, so its matching
is modelled from the spec's words: "The table supports two pattern shapes: a
literal path, and a path containing `:name` parameter segments"; a `:name`
segment matches exactly one non-empty path segment, other segments match
byte-for-byte, case-sensitively, with trailing slashes significant. -/
def patternMatches (pattern path : String) : Bool :=
  let ps := splitSlash pattern.data []
  let ss := splitSlash path.data []
  ps.length == ss.length &&
    (List.zip ps ss).all fun e =>
      match e.1 with
      | ':' :: _ => !e.2.isEmpty
      | _ => e.1 == e.2

/-- Whether a pattern contains no parameter segment. -/
def isStaticPattern (pattern : String) : Bool :=
  (splitSlash pattern.data []).all fun p =>
    match p with
    | ':' :: _ => false
    | _ => true

/-- Modelled from the spec (§4.1): `matchit::Router::at` lookup, "exact-match
wins over prefix-match", static patterns win over parameter patterns; returns
the stored `ProxyDefinition` of the best-matching registered pattern. -/
def routerAt (router : RouteTable) (path : String) : Option ProxyDefinition :=
  match router.find? (fun e => isStaticPattern e.1 && patternMatches e.1 path) with
  | some e => some e.2
  | none => (router.find? fun e => patternMatches e.1 path).map fun e => e.2

/-! ## Outbound clients and `AppState` (`src/proxy.rs` lines 90-167) -/

/-- Certificate-verification policy of the HTTPS outbound client,
`src/proxy.rs` lines 127-159: either the `NoCertificateVerification` verifier
(accepts any server certificate, lines 91-105) or the default verifier over
the platform's native roots. -/
inductive CertVerification where
  | acceptAny
  | nativeRoots
  deriving Repr, DecidableEq

/-- `AppState` from `src/proxy.rs` lines 109-113: the router plus the two
outbound clients. The plain-HTTP client is `Client::new()` with no
configuration of interest; the HTTPS client is modelled by its
certificate-verification policy, the only configuration that varies. -/
structure AppState where
  router : RouteTable
  httpsClientVerification : CertVerification
  deriving Repr, DecidableEq

/-- `AppState::new` from `src/proxy.rs` lines 117-166: build the router, then
decide the HTTPS client's certificate policy once from
`proxies.iter().any(|p| p.skip_certificate_verification)`. -/
def AppState.new (proxies : List ProxyDefinition) : Except GatewayError AppState := do
  let router ← build_router proxies
  let skip_verification := proxies.any fun p => p.skip_certificate_verification
  let verification := if skip_verification then
      CertVerification.acceptAny
    else
      CertVerification.nativeRoots
  return { router := router, httpsClientVerification := verification }

/-! ## Header handling (`src/server.rs` lines 103-148 and 186-201)

Header names are modelled lowercase (the `http` crate stores them
normalized); a header map is an association list and `insert` replaces any
existing value under the same name, as `HeaderMap::insert` does. -/

/-- A header map, as an association list of lowercase names to values. -/
abbrev HeaderMap := List (String × String)

/-- `HeaderMap::contains_key`. -/
def hContainsKey (hs : HeaderMap) (n : String) : Bool :=
  hs.any fun e => e.1 == n

/-- `HeaderMap::get`. -/
def hGet (hs : HeaderMap) (n : String) : Option String :=
  (hs.find? fun e => e.1 == n).map fun e => e.2

/-- `HeaderMap::insert`: any existing entry under the name is replaced. -/
def hInsert (hs : HeaderMap) (n v : String) : HeaderMap :=
  (hs.filter fun e => e.1 != n) ++ [(n, v)]

/-- The request-side hop-by-hop test of `src/server.rs` lines 106-107. -/
def isHopByHopRequestHeader (n : String) : Bool :=
  n == "connection" || n == "keep-alive" || n == "proxy-connection" ||
    n == "transfer-encoding" || n == "upgrade"

/-- The response-side hop-by-hop test of `src/server.rs` line 191. -/
def isHopByHopResponseHeader (n : String) : Bool :=
  n == "connection" || n == "keep-alive" || n == "transfer-encoding"

/-- The header-copy loop of `handle_request`, `src/server.rs` lines 103-118:
copy the inbound headers, skipping hop-by-hop names and skipping `host` when
`preserve_host_header` is false. -/
def copyRequestHeaders (proxy : ProxyDefinition) (reqHeaders : HeaderMap) : HeaderMap :=
  reqHeaders.foldl
    (fun acc e =>
      if isHopByHopRequestHeader e.1 then acc
      else if e.1 == "host" && !proxy.preserve_host_header then acc
      else hInsert acc e.1 e.2)
    []

/-- The full outbound-header construction of `handle_request`,
`src/server.rs` lines 103-148: copy loop, `host` synthesis,
`x-forwarded-for`, `x-forwarded-proto` and `x-forwarded-host`. Note that the
code appends the literal `"127.0.0.1"` as the client address and the literal
`"http"` as the protocol; `handle_request` receives neither the connection's
remote address nor the listener's scheme. -/
def buildForwardHeaders (proxy : ProxyDefinition) (reqHeaders : HeaderMap) : HeaderMap :=
  let headers := copyRequestHeaders proxy reqHeaders
  let headers := if !proxy.preserve_host_header && !hContainsKey headers "host" then
      hInsert headers "host" (proxy.backend_host ++ ":" ++ toString proxy.backend_port)
    else
      headers
  let headers := match hGet reqHeaders "x-forwarded-for" with
    | some clientIp => hInsert headers "x-forwarded-for" (clientIp ++ ", 127.0.0.1")
    | none => hInsert headers "x-forwarded-for" "127.0.0.1"
  let headers := hInsert headers "x-forwarded-proto" "http"
  let headers := if !hContainsKey headers "x-forwarded-host" then
      match hGet reqHeaders "host" with
      | some host => hInsert headers "x-forwarded-host" host
      | none => headers
    else
      headers
  headers

/-- The response-header relay of `handle_request`, `src/server.rs` lines
186-201: copy the backend response headers minus hop-by-hop names, then add
`x-proxy-id`. -/
def buildResponseHeaders (proxy : ProxyDefinition) (backendHeaders : HeaderMap) : HeaderMap :=
  let headers := backendHeaders.foldl
    (fun acc e => if isHopByHopResponseHeader e.1 then acc else hInsert acc e.1 e.2)
    []
  hInsert headers "x-proxy-id" proxy.id

/-! ## The request handler (`src/server.rs` lines 20-236) -/

/-- An inbound HTTP request, as `handle_request` observes it: method, URI path
and query, version and headers. The body is streamed through untouched and is
not modelled. -/
structure Request where
  method : String
  path : String
  query : Option String := none
  version : String := "HTTP/1.1"
  headers : HeaderMap := []
  deriving Repr, DecidableEq

/-- A successfully parsed `hyper::Uri`, identified by its text (parsing itself
is external library behaviour, abstracted in `Env.uriParse`). -/
structure Uri where
  raw : String
  deriving Repr, DecidableEq

/-- The outbound request assembled by `handle_request`, `src/server.rs` lines
97-160: method, parsed target URI, version and the rewritten header set. -/
structure FwdRequest where
  method : String
  uri : Uri
  version : String
  headers : HeaderMap
  deriving Repr, DecidableEq

/-- Which of the two pooled outbound clients a request is dispatched through
(`src/server.rs` lines 163-172). -/
inductive ClientKind where
  | http
  | https
  deriving Repr, DecidableEq

/-- A response received from the backend: status, headers and (abstract)
body. -/
structure BackendResponse where
  status : Nat
  headers : HeaderMap := []
  body : String := ""
  deriving Repr, DecidableEq

/-- The HTTP response `handle_request` returns to the client. -/
structure Response where
  status : Nat
  headers : HeaderMap := []
  body : String := ""
  deriving Repr, DecidableEq

/-- The external effects `handle_request` depends on, abstracted as
functions: `hyper` URI parsing (`uri_string.parse::<Uri>()`, line 85),
finalization of the outbound request builder (`builder.body(..)`, line 151,
which yields an error if the builder accumulated one), and the network
dispatch through an outbound client (`client.request(..).await`, lines
163-172), which returns the backend response or a `hyper` error rendered as
a string. -/
structure Env where
  uriParse : String → Option Uri
  buildOk : FwdRequest → Bool
  dispatch : ClientKind → FwdRequest → Except String BackendResponse

/-- The target URI text, `src/server.rs` lines 71-81:
`{protocol}://{host}:{port}{path_to_forward}{query_string}`. -/
def uriStringOf (proxy : ProxyDefinition) (req : Request) : String :=
  let queryString := match req.query with
    | none => ""
    | some q => "?" ++ q
  proxy.backend_protocol ++ "://" ++ proxy.backend_host ++ ":" ++
    toString proxy.backend_port ++ pathToForward proxy req.path ++ queryString

/-- The result of `handle_request`: the response returned to the client,
together with the outbound dispatch that was performed, if any (`none` when
neither outbound client was invoked). -/
structure HandleResult where
  response : Response
  dispatched : Option (ClientKind × FwdRequest) := none
  deriving Repr, DecidableEq

/-- The matched-route branch of `handle_request`, `src/server.rs` lines
39-222: build the target URI (500 on parse failure, no dispatch), rewrite the
headers, finalize the outbound request (500 on failure, no dispatch), choose
the client by `backend_protocol` (`https` uses the HTTPS client, anything
else the plain client), dispatch, and relay the backend response (status,
filtered headers plus `x-proxy-id`, body) or answer 502 on dispatch error. -/
def forwardToBackend (env : Env) (proxy : ProxyDefinition) (req : Request) : HandleResult :=
  match env.uriParse (uriStringOf proxy req) with
  | none =>
    { response := { status := 500, body := "Failed to construct target URI" } }
  | some uri =>
    let headers := buildForwardHeaders proxy req.headers
    let fwdReq : FwdRequest :=
      { method := req.method, uri := uri, version := req.version, headers := headers }
    if env.buildOk fwdReq then
      let client := if proxy.backend_protocol == "https" then
          ClientKind.https
        else
          ClientKind.http
      match env.dispatch client fwdReq with
      | .ok backendResponse =>
        { response := { status := backendResponse.status,
                        headers := buildResponseHeaders proxy backendResponse.headers,
                        body := backendResponse.body },
          dispatched := some (client, fwdReq) }
      | .error e =>
        { response := { status := 502,
                        body := "Failed to forward request to backend: " ++ e },
          dispatched := some (client, fwdReq) }
    else
      { response := { status := 500, body := "Failed to build forwarded request" } }

/-- `handle_request` from `src/server.rs` lines 20-236. In the source its
return type is `Result<Response<Body>, Infallible>`: every control path wraps
a response in `Ok`, so the embedding returns the response (with its dispatch
record) directly, as a total function. -/
def handle_request (env : Env) (state : AppState) (req : Request) : HandleResult :=
  match routerAt state.router req.path with
  | some proxy => forwardToBackend env proxy req
  | none => { response := { status := 404, body := "Route Not Found" } }

/-! ## TLS private-key loading (`src/tls.rs` lines 34-60) -/

/-- The outcome of running the `rustls_pemfile` parsers over a PEM key file.
The parsers are an external library; each field holds what the corresponding
parser returns on the file's bytes: `none` models a read/decode failure,
`some ks` the list of keys of that format found. The `sec1` field records
what a SEC1/EC parser would return; it exists only so that the
specification's claimed SEC1/EC fallback can be stated — `load_tls_config`
in `src/tls.rs` imports and invokes only `pkcs8_private_keys` and
`rsa_private_keys`. Keys themselves are abstract (naturals). -/
structure KeyFileParse where
  pkcs8 : Option (List Nat)
  rsa : Option (List Nat)
  sec1 : Option (List Nat)
  deriving Repr, DecidableEq

/-- The private-key selection of `load_tls_config`, `src/tls.rs` lines 34-60:
parse PKCS#8 keys (a parser error is fatal); if none were found, re-open the
file and parse RSA keys (a parser error is fatal); if still none, fail with
`TlsConfig "No private keys found in key file"`; otherwise use the first key
found (`private_keys.remove(0)`). -/
def loadPrivateKey (kf : KeyFileParse) : Except GatewayError Nat :=
  match kf.pkcs8 with
  | none => .error (.TlsConfig "Failed to parse PKCS8 private key")
  | some (k :: _) => .ok k
  | some [] =>
    match kf.rsa with
    | none => .error (.TlsConfig "Failed to parse RSA private key")
    | some (k :: _) => .ok k
    | some [] => .error (.TlsConfig "No private keys found in key file")

/-- Modelled from the spec: "private keys are tried in order: PKCS#8, then
RSA/PKCS#1, then SEC1/EC. If none parses, startup fails with a TLS
configuration error." Stated for comparison with `loadPrivateKey`. -/
def loadPrivateKeyClaimedOrder (kf : KeyFileParse) : Except GatewayError Nat :=
  match kf.pkcs8 with
  | some (k :: _) => .ok k
  | _ =>
    match kf.rsa with
    | some (k :: _) => .ok k
    | _ =>
      match kf.sec1 with
      | some (k :: _) => .ok k
      | _ => .error (.TlsConfig "No private keys found in key file")

/-! ## Spec-side definitions for refinement comparison -/

/-- Modelled from the spec, §4.3 "Target URI construction" step 1: the
normalized join of `backend_path` and the suffix `rest` of the inbound path
after `listen_path` — `backend_path` if `rest` is empty; slash deduplicated
when both sides contribute one; a slash inserted when neither does; plain
concatenation otherwise. -/
def specNormalizedJoin (backendPath rest : String) : String :=
  if strIsEmpty rest then
    backendPath
  else if strEndsWith backendPath "/" && strStartsWith rest "/" then
    strDropRight backendPath 1 ++ rest
  else if !strEndsWith backendPath "/" && !strStartsWith rest "/" then
    backendPath ++ "/" ++ rest
  else
    backendPath ++ rest

/-- Replace only the three timeout fields of a definition (used to state that
the request pipeline never reads them). -/
def withTimeouts (p : ProxyDefinition) (connectMs readMs writeMs : Nat) : ProxyDefinition :=
  { p with backend_connect_timeout_ms := connectMs,
           backend_read_timeout_ms := readMs,
           backend_write_timeout_ms := writeMs }

/-! ## Concrete fixtures -/

/-- The spec's S2 scenario read literally, as claim C1 states it: a definition
whose `listen_path` is the parameterized pattern `/rewrite/:path` itself. -/
def rewriteParamProxy : ProxyDefinition :=
  { id := "rewrite-api", name := "Rewrite API Test", listen_path := "/rewrite/:path",
    backend_protocol := "http", backend_host := "127.0.0.1", backend_port := 8081,
    backend_path := "/backend", strip_listen_path := true }

/-- The S2 scenario as the repository's own test builds it
(`tests/server_tests.rs` lines 181-199): `listen_path` is the literal
`/rewrite`, and the pattern `/rewrite/:path` is registered separately. -/
def rewriteLiteralProxy : ProxyDefinition :=
  { id := "rewrite-api", name := "Rewrite API Test", listen_path := "/rewrite",
    backend_protocol := "http", backend_host := "127.0.0.1", backend_port := 8081,
    backend_path := "/backend", strip_listen_path := true }

/-- A definition whose `listen_path` lacks the leading slash. -/
def noSlashProxy : ProxyDefinition :=
  { id := "no-slash", name := "No Slash", listen_path := "api",
    backend_protocol := "http", backend_host := "backend.local" }

/-- A definition requesting the certificate-verification bypass. -/
def skipVerifyProxy : ProxyDefinition :=
  { id := "skip", name := "Skip Verify", listen_path := "/skip",
    backend_protocol := "https", backend_host := "backend.local",
    skip_certificate_verification := true }

/-- A plain literal-path definition, as in the repository's
`test_handle_request_for_known_route`. -/
def apiProxy : ProxyDefinition :=
  { id := "test-api", name := "Test API", listen_path := "/api",
    backend_protocol := "http", backend_host := "127.0.0.1", backend_port := 8080 }

/-- An environment whose URI parser rejects every string (for exercising the
URI-failure branch). -/
def rejectingEnv : Env :=
  { uriParse := fun _ => none,
    buildOk := fun _ => true,
    dispatch := fun _ _ => .error "unreachable" }

/-! ## Support lemmas on header maps -/

/-- Looking up a name right after inserting it yields the inserted value. -/
theorem hGet_hInsert_self (hs : HeaderMap) (n v : String) :
    hGet (hInsert hs n v) n = some v := by
  have hnone : (hs.filter fun e => e.1 != n).find? (fun e => e.1 == n) = none := by
    rw [List.find?_eq_none]
    intro x hx
    have hne := (List.mem_filter.mp hx).2
    simp only [bne_iff_ne, ne_eq] at hne
    simp [hne]
  simp [hGet, hInsert, List.find?_append, hnone]

/-- `find?` by one name is unaffected by filtering out a different name. -/
theorem find?_name_filter_ne (hs : HeaderMap) (n m : String) (h : m ≠ n) :
    (hs.filter fun e => e.1 != n).find? (fun e => e.1 == m)
      = hs.find? fun e => e.1 == m := by
  induction hs with
  | nil => rfl
  | cons e rest ih =>
    obtain ⟨a, b⟩ := e
    by_cases he : a = n
    · subst he
      have hm : (a == m) = false := by
        simp only [beq_eq_false_iff_ne, ne_eq]
        exact fun hc => h hc.symm
      simp [List.filter_cons, List.find?_cons, hm, ih]
    · by_cases hem : a = m
      · subst hem
        simp [List.filter_cons, List.find?_cons, he, ih]
      · simp [List.filter_cons, List.find?_cons, he, hem, ih]

/-- Looking up a name after inserting a different one is unchanged. -/
theorem hGet_hInsert_ne (hs : HeaderMap) (n v m : String) (h : m ≠ n) :
    hGet (hInsert hs n v) m = hGet hs m := by
  have hlast : ([((n : String), v)].find? fun e => e.1 == m) = none := by
    have : (n == m) = false := by
      simp
      exact fun hc => h hc.symm
    simp [List.find?_cons, this]
  simp [hGet, hInsert, List.find?_append, hlast, find?_name_filter_ne hs n m h]

/-- All names in a header map pass the request-side hop-by-hop filter. -/
def noHopNames (hs : HeaderMap) : Prop :=
  ∀ e ∈ hs, isHopByHopRequestHeader e.1 = false

/-- Inserting a non-hop-by-hop name preserves `noHopNames`. -/
theorem noHopNames_hInsert {hs : HeaderMap} {n v : String}
    (h : noHopNames hs) (hn : isHopByHopRequestHeader n = false) :
    noHopNames (hInsert hs n v) := by
  intro e he
  rcases List.mem_append.mp he with hf | hl
  · exact h e (List.mem_filter.mp hf).1
  · have : e = (n, v) := by simpa using hl
    rw [this]
    exact hn

/-- The header-copy loop only ever inserts names that pass the hop-by-hop
filter. -/
theorem noHopNames_copy_loop (proxy : ProxyDefinition) (reqHeaders : HeaderMap) :
    ∀ acc : HeaderMap, noHopNames acc →
      noHopNames (reqHeaders.foldl
        (fun acc e =>
          if isHopByHopRequestHeader e.1 then acc
          else if e.1 == "host" && !proxy.preserve_host_header then acc
          else hInsert acc e.1 e.2)
        acc) := by
  induction reqHeaders with
  | nil => intro acc hacc; simpa using hacc
  | cons e rest ih =>
    intro acc hacc
    rw [List.foldl_cons]
    apply ih
    by_cases hhop : isHopByHopRequestHeader e.1
    · simpa [hhop] using hacc
    · by_cases hhost : (e.1 == "host" && !proxy.preserve_host_header) = true
      · simpa [hhop, hhost] using hacc
      · simp only [hhop, hhost, if_false, Bool.false_eq_true, if_neg]
        simpa [hhop, hhost] using
          noHopNames_hInsert hacc (Bool.eq_false_iff.mpr hhop)

/-- `copyRequestHeaders` yields no hop-by-hop names. -/
theorem noHopNames_copyRequestHeaders (proxy : ProxyDefinition) (reqHeaders : HeaderMap) :
    noHopNames (copyRequestHeaders proxy reqHeaders) := by
  have := noHopNames_copy_loop proxy reqHeaders [] (by intro e he; cases he)
  simpa [copyRequestHeaders] using this

/-- The complete outbound header set contains no hop-by-hop names. -/
theorem noHopNames_buildForwardHeaders (proxy : ProxyDefinition) (reqHeaders : HeaderMap) :
    noHopNames (buildForwardHeaders proxy reqHeaders) := by
  unfold buildForwardHeaders
  have h0 := noHopNames_copyRequestHeaders proxy reqHeaders
  have h1 : noHopNames (if !proxy.preserve_host_header &&
      !hContainsKey (copyRequestHeaders proxy reqHeaders) "host" then
        hInsert (copyRequestHeaders proxy reqHeaders) "host"
          (proxy.backend_host ++ ":" ++ toString proxy.backend_port)
      else copyRequestHeaders proxy reqHeaders) := by
    split
    · exact noHopNames_hInsert h0 (by decide)
    · exact h0
  set hs1 := if !proxy.preserve_host_header &&
      !hContainsKey (copyRequestHeaders proxy reqHeaders) "host" then
        hInsert (copyRequestHeaders proxy reqHeaders) "host"
          (proxy.backend_host ++ ":" ++ toString proxy.backend_port)
      else copyRequestHeaders proxy reqHeaders with hs1def
  have h2 : noHopNames (match hGet reqHeaders "x-forwarded-for" with
      | some clientIp => hInsert hs1 "x-forwarded-for" (clientIp ++ ", 127.0.0.1")
      | none => hInsert hs1 "x-forwarded-for" "127.0.0.1") := by
    cases hGet reqHeaders "x-forwarded-for" with
    | some clientIp => exact noHopNames_hInsert h1 (by decide)
    | none => exact noHopNames_hInsert h1 (by decide)
  set hs2 := match hGet reqHeaders "x-forwarded-for" with
    | some clientIp => hInsert hs1 "x-forwarded-for" (clientIp ++ ", 127.0.0.1")
    | none => hInsert hs1 "x-forwarded-for" "127.0.0.1" with hs2def
  have h3 : noHopNames (hInsert hs2 "x-forwarded-proto" "http") :=
    noHopNames_hInsert h2 (by decide)
  set hs3 := hInsert hs2 "x-forwarded-proto" "http" with hs3def
  have h4 : noHopNames (if !hContainsKey hs3 "x-forwarded-host" then
      match hGet reqHeaders "host" with
      | some host => hInsert hs3 "x-forwarded-host" host
      | none => hs3
      else hs3) := by
    split
    · cases hGet reqHeaders "host" with
      | some host => exact noHopNames_hInsert h3 (by decide)
      | none => exact h3
    · exact h3
  exact h4

/-- A header map without hop-by-hop names reports `contains_key = false` for
every hop-by-hop name. -/
theorem hContainsKey_eq_false_of_noHop {hs : HeaderMap} {n : String}
    (h : noHopNames hs) (hn : isHopByHopRequestHeader n = true) :
    hContainsKey hs n = false := by
  rw [Bool.eq_false_iff]
  intro hc
  simp only [hContainsKey] at hc
  rcases List.any_eq_true.mp hc with ⟨e, he, heq⟩
  have he1 : e.1 = n := by simpa using heq
  have hgood := h e he
  rw [he1, hn] at hgood
  simp at hgood

/-! ## Claim theorems -/

/-- C5: for every proxy definition and inbound header set, the outbound
request's header set contains none of `connection`, `keep-alive`,
`proxy-connection`, `transfer-encoding`, `upgrade`, regardless of which of
them the inbound request carried. -/
theorem outbound_headers_no_hop_by_hop (proxy : ProxyDefinition) (reqHeaders : HeaderMap) :
    hContainsKey (buildForwardHeaders proxy reqHeaders) "connection" = false ∧
    hContainsKey (buildForwardHeaders proxy reqHeaders) "keep-alive" = false ∧
    hContainsKey (buildForwardHeaders proxy reqHeaders) "proxy-connection" = false ∧
    hContainsKey (buildForwardHeaders proxy reqHeaders) "transfer-encoding" = false ∧
    hContainsKey (buildForwardHeaders proxy reqHeaders) "upgrade" = false :=
  ⟨hContainsKey_eq_false_of_noHop (noHopNames_buildForwardHeaders proxy reqHeaders) (by decide),
   hContainsKey_eq_false_of_noHop (noHopNames_buildForwardHeaders proxy reqHeaders) (by decide),
   hContainsKey_eq_false_of_noHop (noHopNames_buildForwardHeaders proxy reqHeaders) (by decide),
   hContainsKey_eq_false_of_noHop (noHopNames_buildForwardHeaders proxy reqHeaders) (by decide),
   hContainsKey_eq_false_of_noHop (noHopNames_buildForwardHeaders proxy reqHeaders) (by decide)⟩

/-- C3: the outbound `x-forwarded-for` value is fully determined by the
inbound header alone — the literal `"127.0.0.1"` when absent, the inbound
value with `", 127.0.0.1"` appended when present. The connection's remote
peer address plays no part: `handle_request` is never given it. -/
theorem x_forwarded_for_placeholder (proxy : ProxyDefinition) (reqHeaders : HeaderMap) :
    hGet (buildForwardHeaders proxy reqHeaders) "x-forwarded-for"
      = some (match hGet reqHeaders "x-forwarded-for" with
              | some clientIp => clientIp ++ ", 127.0.0.1"
              | none => "127.0.0.1") := by
  simp only [buildForwardHeaders]
  set hs0 := copyRequestHeaders proxy reqHeaders with hs0def
  set hs1 := (if !proxy.preserve_host_header && !hContainsKey hs0 "host" then
      hInsert hs0 "host" (proxy.backend_host ++ ":" ++ toString proxy.backend_port)
    else hs0) with hs1def
  cases hx : hGet reqHeaders "x-forwarded-for" with
  | some clientIp =>
    set hs2 := hInsert hs1 "x-forwarded-for" (clientIp ++ ", 127.0.0.1") with hs2def
    set hs3 := hInsert hs2 "x-forwarded-proto" "http" with hs3def
    have hbase : hGet hs3 "x-forwarded-for" = some (clientIp ++ ", 127.0.0.1") := by
      rw [hs3def, hGet_hInsert_ne hs2 "x-forwarded-proto" "http" "x-forwarded-for" (by decide)]
      exact hGet_hInsert_self hs1 _ _
    split
    · cases hGet reqHeaders "host" with
      | some host =>
        rw [hGet_hInsert_ne hs3 "x-forwarded-host" host "x-forwarded-for" (by decide)]
        exact hbase
      | none => exact hbase
    · exact hbase
  | none =>
    set hs2 := hInsert hs1 "x-forwarded-for" "127.0.0.1" with hs2def
    set hs3 := hInsert hs2 "x-forwarded-proto" "http" with hs3def
    have hbase : hGet hs3 "x-forwarded-for" = some "127.0.0.1" := by
      rw [hs3def, hGet_hInsert_ne hs2 "x-forwarded-proto" "http" "x-forwarded-for" (by decide)]
      exact hGet_hInsert_self hs1 _ _
    split
    · cases hGet reqHeaders "host" with
      | some host =>
        rw [hGet_hInsert_ne hs3 "x-forwarded-host" host "x-forwarded-for" (by decide)]
        exact hbase
      | none => exact hbase
    · exact hbase

/-- C4: the outbound `x-forwarded-proto` header is the literal `"http"` for
every request, whichever listener (plain or TLS) accepted it —
`handle_request` is never told the scheme and hardcodes the value. -/
theorem x_forwarded_proto_always_http (proxy : ProxyDefinition) (reqHeaders : HeaderMap) :
    hGet (buildForwardHeaders proxy reqHeaders) "x-forwarded-proto" = some "http" := by
  simp only [buildForwardHeaders]
  set hs0 := copyRequestHeaders proxy reqHeaders with hs0def
  set hs1 := (if !proxy.preserve_host_header && !hContainsKey hs0 "host" then
      hInsert hs0 "host" (proxy.backend_host ++ ":" ++ toString proxy.backend_port)
    else hs0) with hs1def
  cases hx : hGet reqHeaders "x-forwarded-for" with
  | some clientIp =>
    set hs2 := hInsert hs1 "x-forwarded-for" (clientIp ++ ", 127.0.0.1") with hs2def
    set hs3 := hInsert hs2 "x-forwarded-proto" "http" with hs3def
    have hbase : hGet hs3 "x-forwarded-proto" = some "http" := hGet_hInsert_self hs2 _ _
    split
    · cases hGet reqHeaders "host" with
      | some host =>
        rw [hGet_hInsert_ne hs3 "x-forwarded-host" host "x-forwarded-proto" (by decide)]
        exact hbase
      | none => exact hbase
    · exact hbase
  | none =>
    set hs2 := hInsert hs1 "x-forwarded-for" "127.0.0.1" with hs2def
    set hs3 := hInsert hs2 "x-forwarded-proto" "http" with hs3def
    have hbase : hGet hs3 "x-forwarded-proto" = some "http" := hGet_hInsert_self hs2 _ _
    split
    · cases hGet reqHeaders "host" with
      | some host =>
        rw [hGet_hInsert_ne hs3 "x-forwarded-host" host "x-forwarded-proto" (by decide)]
        exact hbase
      | none => exact hbase
    · exact hbase

/-- C2: the entire matched-route pipeline — target URI, outbound headers,
client choice, dispatch and response relay — is invariant under the three
`backend_*_timeout_ms` fields of the matched definition: the code never
reads them after deserialization, so no connect/read/write deadline derived
from them can be enforced on the dispatch. -/
theorem dispatch_ignores_timeout_fields (env : Env) (proxy : ProxyDefinition) (req : Request)
    (connectMs readMs writeMs : Nat) :
    forwardToBackend env (withTimeouts proxy connectMs readMs writeMs) req
      = forwardToBackend env proxy req := rfl

/-- C1 (amended): when `strip_listen_path` is true and the inbound path `p`
literally begins with the definition's `listen_path`, the forwarded path is
the spec's normalized join of `backend_path` with the stripped suffix. -/
theorem forwarded_path_strip_literal (proxy : ProxyDefinition) (p : String)
    (hstrip : proxy.strip_listen_path = true)
    (hpre : strStartsWith p proxy.listen_path = true) :
    pathToForward proxy p
      = specNormalizedJoin proxy.backend_path (strDrop p (strLength proxy.listen_path)) := by
  simp [pathToForward, specNormalizedJoin, hstrip, hpre]

/-- Witness for C1's amended theorem at the repository's own S2 setup
(`listen_path` the literal `/rewrite`): the request `/rewrite/test` is
forwarded to `/backend/test`. -/
theorem forwarded_path_strip_literal_witness :
    rewriteLiteralProxy.strip_listen_path = true ∧
    strStartsWith "/rewrite/test" rewriteLiteralProxy.listen_path = true ∧
    pathToForward rewriteLiteralProxy "/rewrite/test"
      = specNormalizedJoin rewriteLiteralProxy.backend_path
          (strDrop "/rewrite/test" (strLength rewriteLiteralProxy.listen_path)) ∧
    specNormalizedJoin rewriteLiteralProxy.backend_path
        (strDrop "/rewrite/test" (strLength rewriteLiteralProxy.listen_path))
      = "/backend/test" :=
  ⟨by decide, by decide,
   forwarded_path_strip_literal rewriteLiteralProxy "/rewrite/test" (by decide) (by decide),
   by decide⟩

/-- C1 counterexample: with the claim's literal S2 definition —
`listen_path` is the parameterized pattern `/rewrite/:path` itself — the
route matches `/rewrite/test`, yet `starts_with` fails against the pattern
text, so nothing is stripped and the forwarded path is
`/backend/rewrite/test`, not the claimed `/backend/test`. -/
theorem forwarded_path_strip_param_counterexample :
    build_router [rewriteParamProxy] = .ok [("/rewrite/:path", rewriteParamProxy)] ∧
    routerAt [("/rewrite/:path", rewriteParamProxy)] "/rewrite/test"
      = some rewriteParamProxy ∧
    rewriteParamProxy.strip_listen_path = true ∧
    pathToForward rewriteParamProxy "/rewrite/test" = "/backend/rewrite/test" ∧
    pathToForward rewriteParamProxy "/rewrite/test" ≠ "/backend/test" :=
  ⟨rfl, by decide, by decide, by decide, by decide⟩

/-- The normalized pattern always begins with `/`. -/
theorem strStartsWith_normalizeListenPath (lp : String) :
    strStartsWith (normalizeListenPath lp) "/" = true := by
  unfold normalizeListenPath
  by_cases h : strStartsWith lp "/" = true
  · simp [h]
  · rw [Bool.not_eq_true] at h
    rw [h]
    simp only [Bool.not_false, if_true]
    show strStartsWith ("/" ++ lp) "/" = true
    have hd : ("/" ++ lp).data = '/' :: lp.data := by
      rw [String.data_append]
      rfl
    rw [strStartsWith, hd]
    show List.isPrefixOf ['/'] ('/' :: lp.data) = true
    simp [List.isPrefixOf]

/-- Invariant of the router-build loop: every entry of a successful result
either was already in the accumulator or carries a `/`-normalized pattern
and stores one of the remaining input definitions unchanged. -/
theorem build_router_loop_inv (proxies : List ProxyDefinition) :
    ∀ acc router : RouteTable,
      build_router_loop acc proxies = .ok router →
      ∀ e ∈ router, e ∈ acc ∨ (strStartsWith e.1 "/" = true ∧ e.2 ∈ proxies) := by
  induction proxies with
  | nil =>
    intro acc router h e he
    left
    cases h
    exact he
  | cons proxy rest ih =>
    intro acc router h e he
    rw [build_router_loop] at h
    by_cases hconf :
        acc.any (fun e2 => e2.1 == normalizeListenPath proxy.listen_path) = true
    · rw [if_pos hconf] at h
      cases h
    · rw [if_neg hconf] at h
      rcases ih (acc ++ [(normalizeListenPath proxy.listen_path, proxy)]) router h e he
        with hin | ⟨hsw, hmem⟩
      · rcases List.mem_append.mp hin with h1 | h2
        · left
          exact h1
        · right
          have he2 : e = (normalizeListenPath proxy.listen_path, proxy) := by
            simpa using h2
          rw [he2]
          exact ⟨strStartsWith_normalizeListenPath proxy.listen_path,
                 List.mem_cons_self proxy rest⟩
      · right
        exact ⟨hsw, List.mem_cons_of_mem proxy hmem⟩

/-- C7 (amended): in a successfully built router, every registered pattern
begins with `/`, and every stored `ProxyDefinition` is one of the input
definitions, unchanged — in particular its `listen_path` keeps whatever
form it had on load; only the pattern is normalized. -/
theorem route_patterns_normalized (proxies : List ProxyDefinition) (router : RouteTable)
    (h : build_router proxies = .ok router) :
    ∀ e ∈ router, strStartsWith e.1 "/" = true ∧ e.2 ∈ proxies := by
  intro e he
  rcases build_router_loop_inv proxies [] router h e he with hin | hok
  · cases hin
  · exact hok

/-- Witness for C7's amended theorem: the slash-less definition builds, its
registered pattern is `/api`, which begins with `/`, and the stored value is
the input definition. -/
theorem route_patterns_normalized_witness :
    strStartsWith ("/api", noSlashProxy).1 "/" = true ∧
      ("/api", noSlashProxy).2 ∈ [noSlashProxy] :=
  route_patterns_normalized [noSlashProxy] [("/api", noSlashProxy)] rfl
    ("/api", noSlashProxy) (by decide)

/-- C7 counterexample: building from a definition whose `listen_path` is
`api` succeeds, and the `ProxyDefinition` stored in the resulting table still
has `listen_path = "api"`, which does not begin with `/` — the stripping
logic subsequently sees the unnormalized value. -/
theorem router_stores_unnormalized_counterexample :
    build_router [noSlashProxy] = .ok [("/api", noSlashProxy)] ∧
    strStartsWith noSlashProxy.listen_path "/" = false :=
  ⟨rfl, by decide⟩

/-- C6: an `AppState` built successfully from a definition list has the
accept-any-certificate verifier on its HTTPS outbound client exactly when
some definition sets `skip_certificate_verification`; the policy is part of
the immutable state value computed once by `AppState::new`. -/
theorem https_client_cert_policy_iff (proxies : List ProxyDefinition) (st : AppState)
    (h : AppState.new proxies = .ok st) :
    (st.httpsClientVerification = CertVerification.acceptAny
      ↔ ∃ p ∈ proxies, p.skip_certificate_verification = true) := by
  unfold AppState.new at h
  cases hb : build_router proxies with
  | error e =>
    rw [hb] at h
    cases h
  | ok router =>
    rw [hb] at h
    simp only [bind, Except.bind, pure, Except.pure] at h
    cases h
    cases hany : proxies.any fun p => p.skip_certificate_verification with
    | true =>
      simp only [hany]
      constructor
      · intro _
        simpa using List.any_eq_true.mp hany
      · intro _
        simp
    | false =>
      simp only [hany]
      constructor
      · intro hc
        simp at hc
      · rintro ⟨p, hp, hskip⟩
        have hc : proxies.any (fun p => p.skip_certificate_verification) = true :=
          List.any_eq_true.mpr ⟨p, hp, by simp [hskip]⟩
        rw [hany] at hc
        cases hc

/-- Witness for C6 at a one-definition list requesting the bypass. -/
theorem https_client_cert_policy_iff_witness :
    (({ router := [("/skip", skipVerifyProxy)],
        httpsClientVerification := CertVerification.acceptAny } : AppState).httpsClientVerification
        = CertVerification.acceptAny
      ↔ ∃ p ∈ [skipVerifyProxy], p.skip_certificate_verification = true) :=
  https_client_cert_policy_iff [skipVerifyProxy] _ rfl

/-- C8: for a matched route, if the constructed target URI fails to parse,
the handler answers 500 with the short diagnostic body and no backend
dispatch is performed — neither outbound client is invoked. -/
theorem uri_parse_failure_500_no_dispatch (env : Env) (st : AppState) (req : Request)
    (proxy : ProxyDefinition)
    (hmatch : routerAt st.router req.path = some proxy)
    (hparse : env.uriParse (uriStringOf proxy req) = none) :
    handle_request env st req
      = { response := { status := 500, body := "Failed to construct target URI" },
          dispatched := none } := by
  simp [handle_request, hmatch, forwardToBackend, hparse]

/-- Witness for C8 with a URI parser that rejects everything. -/
theorem uri_parse_failure_500_no_dispatch_witness :
    handle_request rejectingEnv
        { router := [("/api", apiProxy)],
          httpsClientVerification := CertVerification.nativeRoots }
        { method := "GET", path := "/api" }
      = { response := { status := 500, body := "Failed to construct target URI" },
          dispatched := none } :=
  uri_parse_failure_500_no_dispatch rejectingEnv
    { router := [("/api", apiProxy)],
      httpsClientVerification := CertVerification.nativeRoots }
    { method := "GET", path := "/api" } apiProxy (by decide) rfl

/-- C9 (amended): the private key is selected by trying PKCS#8 first and
then RSA/PKCS#1 — and only those two formats; when neither yields a key
(including when a SEC1/EC key is present), startup fails with a
`TlsConfig` error, and a parser failure of either attempted format is
itself a fatal `TlsConfig` error. -/
theorem private_key_order_pkcs8_rsa (kf : KeyFileParse) :
    (∀ k ks, kf.pkcs8 = some (k :: ks) → loadPrivateKey kf = .ok k) ∧
    (∀ k ks, kf.pkcs8 = some [] → kf.rsa = some (k :: ks) → loadPrivateKey kf = .ok k) ∧
    (kf.pkcs8 = some [] → kf.rsa = some [] →
      loadPrivateKey kf = .error (.TlsConfig "No private keys found in key file")) ∧
    (kf.pkcs8 = none →
      loadPrivateKey kf = .error (.TlsConfig "Failed to parse PKCS8 private key")) ∧
    (kf.pkcs8 = some [] → kf.rsa = none →
      loadPrivateKey kf = .error (.TlsConfig "Failed to parse RSA private key")) := by
  refine ⟨?_, ?_, ?_, ?_, ?_⟩
  · intro k ks h
    simp [loadPrivateKey, h]
  · intro k ks h1 h2
    simp [loadPrivateKey, h1, h2]
  · intro h1 h2
    simp [loadPrivateKey, h1, h2]
  · intro h
    simp [loadPrivateKey, h]
  · intro h1 h2
    simp [loadPrivateKey, h1, h2]

/-- Witness for C9's amended theorem: a key file holding only a SEC1/EC key
still fails with the `TlsConfig` error. -/
theorem private_key_order_pkcs8_rsa_witness :
    loadPrivateKey ⟨some [], some [], some [7]⟩
      = .error (.TlsConfig "No private keys found in key file") :=
  (private_key_order_pkcs8_rsa ⟨some [], some [], some [7]⟩).2.2.1 rfl rfl

/-- C9 counterexample: on a key file whose only key is SEC1/EC, the code
fails with `No private keys found in key file`, while the claimed
three-format fallback order would have succeeded — the SEC1/EC format is
never attempted (`src/tls.rs` imports only `pkcs8_private_keys` and
`rsa_private_keys`). -/
theorem sec1_key_not_attempted_counterexample :
    loadPrivateKey ⟨some [], some [], some [7]⟩
      = .error (.TlsConfig "No private keys found in key file") ∧
    loadPrivateKeyClaimedOrder ⟨some [], some [], some [7]⟩ = .ok 7 :=
  ⟨rfl, rfl⟩

/-- C10: `handle_request` is total — in the source its error type is
`Infallible`, every path returns `Ok` — and every outcome is one of: a 404
route miss, a 500 rewrite/build failure, a 502 dispatch failure, or a
relayed backend response whose status is the backend's. -/
theorem handle_request_always_responds (env : Env) (st : AppState) (req : Request) :
    (handle_request env st req).response.status = 404 ∨
    (handle_request env st req).response.status = 500 ∨
    (handle_request env st req).response.status = 502 ∨
    (∃ client fwdReq backendResponse,
      env.dispatch client fwdReq = Except.ok backendResponse ∧
      (handle_request env st req).response.status = backendResponse.status) := by
  simp only [handle_request, forwardToBackend]
  repeat' split
  all_goals first
    | (left; rfl)
    | (right; left; rfl)
    | (right; right; left; rfl)
    | (right; right; right; exact ⟨_, _, _, by assumption, rfl⟩)

end Ferrum
